import Mathlib

/-!
Shallow embedding of the SBK_MAX72xx library (SBK_MAX72xxHard.cpp /
SBK_MAX72xxSoft.cpp): daisy-chained MAX7219/MAX7221 LED drivers.

The two transport variants share byte-for-byte identical buffer logic
(setLed / getLed / setCol / clear / register writes); those functions are
embedded once in namespace SBK.  The parts where the two C++ classes
differ textually — the show() / show(devIdx) flush paths, where the Hard
variant wraps its loop in SPI.beginTransaction / SPI.endTransaction and
the Soft variant delegates per device — are embedded separately in
namespaces SBK.Hard and SBK.Soft.

Machine bytes (uint8_t) are modelled as Nat kept below 256 by the
well-formedness predicate WF; the bit operations `|=`, `&= ~mask` are
modelled with Nat.lor / Nat.land against the 8-bit complement
255 ^^^ mask, which agrees with the C uint8_t semantics for byte
values < 256.

Observable effects (wire bytes, chip-select transitions, SPI transaction
bracketing, the Serial debug line printed by setLed) are modelled as a
trace of events.
-/

namespace SBK

/-- MAX7219/MAX7221 opcodes (`#define` table at the top of both .cpp files). -/
def OP_NOOP : Nat := 0x00

/-- Opcode of digit register 0; digit register `c` is `OP_DIGIT0 + c`. -/
def OP_DIGIT0 : Nat := 0x01

/-- `#define OP_DECODEMODE 0x09` -/
def OP_DECODEMODE : Nat := 0x09

/-- `#define OP_INTENSITY 0x0A` -/
def OP_INTENSITY : Nat := 0x0A

/-- `#define OP_SCANLIMIT 0x0B` -/
def OP_SCANLIMIT : Nat := 0x0B

/-- `#define OP_SHUTDOWN 0x0C` -/
def OP_SHUTDOWN : Nat := 0x0C

/-- `#define OP_DISPLAYTEST 0x0F` -/
def OP_DISPLAYTEST : Nat := 0x0F

/-- `static constexpr uint8_t _defaultRowBufferSize = 8;` (`maxRows()`). -/
def maxRows : Nat := 8

/-- `static constexpr uint8_t _defaultColBufferSize = 8;` (`maxColumns()`). -/
def maxColumns : Nat := 8

/-- One observable event of the embedded program.

* `csLow` / `csHigh` — `digitalWrite(_csPin, LOW/HIGH)`: chip-select
  assertion (active low) and deassertion.
* `sendByte b` — one byte shifted out MSB-first on the wire; emitted by
  `SPI.transfer(b)` in the Hard variant and by
  `shiftOut(_dataPin, _clkPin, MSBFIRST, b)` in the Soft variant, which
  are byte-identical at the wire level.
* `spiBegin` / `spiEnd` — `SPI.beginTransaction` / `SPI.endTransaction`
  (Hard variant only): not wire bytes, but observable shared SPI-bus
  state.
* `serialLed dev row col state` — the debug text line
  `"[setLed] Dev: <dev> Row: <row> Col: <col> State: <ON/OFF>"` that the
  `Serial.print` block at the end of `setLed` writes to serial output. -/
inductive Event where
  | csLow : Event
  | csHigh : Event
  | sendByte : Nat → Event
  | spiBegin : Event
  | spiEnd : Event
  | serialLed : Nat → Nat → Nat → Bool → Event
deriving DecidableEq

/-- Events that are wire traffic: bytes on the data line and chip-select
transitions (the observables the spec's byte-sink + select-line
capability contract exposes). -/
def isWire : Event → Bool
  | Event.csLow => true
  | Event.csHigh => true
  | Event.sendByte _ => true
  | _ => false

/-- The object state shared by both classes: `_devsNum` (clamped chain
length), `_buffer` (`_devsNum * 8` bytes) and `_update` (per-device
dirty flags). Pin numbers and the SPI clock field do not influence any
modelled observable and are omitted. -/
structure MAXState where
  devsNum : Nat
  buffer : List Nat
  update : List Bool
deriving DecidableEq

/-- Arduino's `constrain(amt, low, high)` macro:
`amt < low ? low : (amt > high ? high : amt)`. -/
def constrain (amt low high : Nat) : Nat :=
  if amt < low then low else if amt > high then high else amt

/-- The constructor body, identical in both classes:
`_devsNum(constrain(devsNum, 1, 8))`, then
`_buffer = new uint8_t[_devsNum * _defaultColBufferSize]` zeroed by
`memset`, and `_update = new bool[_devsNum]()` (value-initialised to
false). -/
def mkState (devsNum : Nat) : MAXState :=
  { devsNum := constrain devsNum 1 8
    buffer := List.replicate (constrain devsNum 1 8 * maxColumns) 0
    update := List.replicate (constrain devsNum 1 8) false }

/-- `_colIndex(devIdx, colIdx) = devIdx * _defaultColBufferSize + colIdx`. -/
def colIndex (devIdx colIdx : Nat) : Nat :=
  devIdx * maxColumns + colIdx

/-- `_bitMaskRow(devIdx, rowIdx) = 1 << ((maxRows(devIdx) - 1) - rowIdx)`;
`maxRows` is always 8, so the mask is `2 ^ (7 - rowIdx)` (callers
guarantee `rowIdx < 8`). -/
def bitMaskRow (rowIdx : Nat) : Nat :=
  2 ^ ((maxRows - 1) - rowIdx)

/-- Well-formedness of a state: what the constructor establishes and
every operation preserves — the chain length is in [1,8], the buffer has
`devsNum * 8` entries, all byte-valued, and there is one dirty flag per
device. -/
def WF (s : MAXState) : Prop :=
  1 ≤ s.devsNum ∧ s.devsNum ≤ 8 ∧
  s.buffer.length = s.devsNum * maxColumns ∧
  s.update.length = s.devsNum ∧
  ∀ b ∈ s.buffer, b < 256

instance (s : MAXState) : Decidable (WF s) := by
  unfold WF; infer_instance

/-- The body of the `for (int8_t i = _devsNum - 1; i >= 0; i--)` loop of
`_spiTransfer`, over the list of device indices in emission order: for
each `i`, send `(opcode, data)` if `i == targetDevice`, else
`(OP_NOOP, 0)`. -/
def frameBytes (targetDevice opcode data : Nat) : List Nat → List Event
  | [] => []
  | i :: rest =>
      Event.sendByte (if i = targetDevice then opcode else OP_NOOP) ::
      Event.sendByte (if i = targetDevice then data else 0) ::
      frameBytes targetDevice opcode data rest

/-- `_spiTransfer(targetDevice, opcode, data)` — identical in both
classes at the byte level (`SPI.transfer` vs `shiftOut` both emit one
byte): drop the call if `targetDevice >= _devsNum`; otherwise assert CS,
emit the frame for devices `_devsNum - 1` down to `0`, deassert CS. -/
def spiTransfer (s : MAXState) (targetDevice opcode data : Nat) : List Event :=
  if s.devsNum ≤ targetDevice then []
  else
    Event.csLow ::
      (frameBytes targetDevice opcode data (List.range s.devsNum).reverse ++
        [Event.csHigh])

/-- `_writeColToAllDevices(targetDevice, colIdx, data)` — identical in
both classes at the byte level: like `_spiTransfer` with opcode
`OP_DIGIT0 + colIdx`, additionally dropped when `colIdx >= maxColumns()`. -/
def writeColToAllDevices (s : MAXState) (targetDevice colIdx data : Nat) :
    List Event :=
  if s.devsNum ≤ targetDevice ∨ maxColumns ≤ colIdx then []
  else
    Event.csLow ::
      (frameBytes targetDevice (OP_DIGIT0 + colIdx) data
          (List.range s.devsNum).reverse ++
        [Event.csHigh])

/-- `setShutdown(devIdx, status)`:
`_spiTransfer(devIdx, OP_SHUTDOWN, status ? 0 : 1)` (chip-inverted
sense). State unchanged. -/
def setShutdown (s : MAXState) (devIdx : Nat) (status : Bool) :
    MAXState × List Event :=
  (s, spiTransfer s devIdx OP_SHUTDOWN (if status then 0 else 1))

/-- `setScanLimit(devIdx, limit)`:
`_spiTransfer(devIdx, OP_SCANLIMIT, limit & 0x07)`. -/
def setScanLimit (s : MAXState) (devIdx limit : Nat) :
    MAXState × List Event :=
  (s, spiTransfer s devIdx OP_SCANLIMIT (limit &&& 0x07))

/-- `setBrightness(devIdx, brightness)`: the brightness is masked to
4 bits and sent with `OP_INTENSITY` (the source masks twice;
`(b & 0x0F) & 0x0F = b & 0x0F`). -/
def setBrightness (s : MAXState) (devIdx brightness : Nat) :
    MAXState × List Event :=
  (s, spiTransfer s devIdx OP_INTENSITY ((brightness &&& 0x0F) &&& 0x0F))

/-- `testMode(devIdx, enable)`: guarded by `devIdx >= _devsNum`, then
`_spiTransfer(devIdx, OP_DISPLAYTEST, enable ? 1 : 0)`. -/
def testMode (s : MAXState) (devIdx : Nat) (enable : Bool) :
    MAXState × List Event :=
  if s.devsNum ≤ devIdx then (s, [])
  else (s, spiTransfer s devIdx OP_DISPLAYTEST (if enable then 1 else 0))

/-- The `for (colIdx = 0; colIdx < maxColumns(); colIdx++)` loop of
`clear(devIdx)`, over the list of column indices: zero the buffer byte,
then `_spiTransfer(devIdx, OP_DIGIT0 + colIdx, 0x00)`. -/
def clearLoop (devIdx : Nat) (s : MAXState) : List Nat → MAXState × List Event
  | [] => (s, [])
  | c :: rest =>
      let s' : MAXState :=
        { s with buffer := s.buffer.set (colIndex devIdx c) 0 }
      let evs := spiTransfer s' devIdx (OP_DIGIT0 + c) 0
      let p := clearLoop devIdx s' rest
      (p.1, evs ++ p.2)

/-- `clear(devIdx)`: no-op when `devIdx >= _devsNum`; otherwise set
`_update[devIdx] = true`, then run the per-column zeroing loop. -/
def clearOne (s : MAXState) (devIdx : Nat) : MAXState × List Event :=
  if s.devsNum ≤ devIdx then (s, [])
  else
    clearLoop devIdx { s with update := s.update.set devIdx true }
      (List.range maxColumns)

/-- The `for (d = 0; d < _devsNum; d++) clear(d)` loop of `clear()`. -/
def clearAllLoop (s : MAXState) : List Nat → MAXState × List Event
  | [] => (s, [])
  | d :: rest =>
      let p := clearOne s d
      let q := clearAllLoop p.1 rest
      (q.1, p.2 ++ q.2)

/-- `clear()`: clears every device in index order. -/
def clearAll (s : MAXState) : MAXState × List Event :=
  clearAllLoop s (List.range s.devsNum)

/-- `setLed(devIdx, rowIdx, colIdx, state)`: bounds-guarded read-modify-
write of one bit of the buffer byte at `(devIdx, colIdx)`; the device is
marked dirty only if the byte value changed; in the in-range case the
`Serial.print` block then writes the debug line. -/
def setLed (s : MAXState) (devIdx rowIdx colIdx : Nat) (state : Bool) :
    MAXState × List Event :=
  if s.devsNum ≤ devIdx ∨ maxRows ≤ rowIdx ∨ maxColumns ≤ colIdx then (s, [])
  else
    let prior := s.buffer.getD (colIndex devIdx colIdx) 0
    let val :=
      if state then prior ||| bitMaskRow rowIdx
      else prior &&& (255 ^^^ bitMaskRow rowIdx)
    let s' : MAXState :=
      { s with
        buffer := s.buffer.set (colIndex devIdx colIdx) val
        update := if val ≠ prior then s.update.set devIdx true else s.update }
    (s', [Event.serialLed devIdx rowIdx colIdx state])

/-- `getLed(devIdx, rowIdx, colIdx)`: false when out of range, else
tests the addressed bit of the buffer byte. Pure read, no events. -/
def getLed (s : MAXState) (devIdx rowIdx colIdx : Nat) : Bool :=
  if s.devsNum ≤ devIdx ∨ maxRows ≤ rowIdx ∨ maxColumns ≤ colIdx then false
  else
    (s.buffer.getD (colIndex devIdx colIdx) 0 &&& bitMaskRow rowIdx) ≠ 0

/-- `setCol(devIdx, colIdx, value)`: bounds-guarded bulk write of one
buffer byte; dirties the device only if the stored byte changes. -/
def setCol (s : MAXState) (devIdx colIdx value : Nat) :
    MAXState × List Event :=
  if s.devsNum ≤ devIdx ∨ maxColumns ≤ colIdx then (s, [])
  else if s.buffer.getD (colIndex devIdx colIdx) 0 ≠ value then
    ({ s with
        buffer := s.buffer.set (colIndex devIdx colIdx) value
        update := s.update.set devIdx true }, [])
  else (s, [])

/-- The `for (colIdx = 0; ...)` loop shared by both `show` overloads:
`_writeColToAllDevices(devIdx, colIdx, _buffer[_colIndex(devIdx,
colIdx)])` for each column (the buffer is not modified during the loop). -/
def colLoop (s : MAXState) (devIdx : Nat) : List Nat → List Event
  | [] => []
  | c :: rest =>
      writeColToAllDevices s devIdx c (s.buffer.getD (colIndex devIdx c) 0) ++
        colLoop s devIdx rest

/-- One public call, used to compare the two transport variants (C4):
the ops named by the spec's public surface. `showAll` is the C++
`show()` overload, `showOne d` is `show(uint8_t devIdx)`. -/
inductive Op where
  | setLed : Nat → Nat → Nat → Bool → Op
  | setCol : Nat → Nat → Nat → Op
  | clearOne : Nat → Op
  | clearAll : Op
  | setBrightness : Nat → Nat → Op
  | setScanLimit : Nat → Nat → Op
  | setShutdown : Nat → Bool → Op
  | testMode : Nat → Bool → Op
  | showAll : Op
  | showOne : Nat → Op
deriving DecidableEq

namespace Hard

/-- The device loop of `SBK_MAX72xxHard::show()`: for each device in
index order, if `_update[devIdx]` then write all its columns and clear
the flag (the loop is inlined in `show()`, it does not call the
one-device overload). -/
def showLoop (s : MAXState) : List Nat → MAXState × List Event
  | [] => (s, [])
  | d :: rest =>
      if s.update.getD d false then
        let evs := colLoop s d (List.range maxColumns)
        let s' : MAXState := { s with update := s.update.set d false }
        let p := showLoop s' rest
        (p.1, evs ++ p.2)
      else showLoop s rest

/-- `SBK_MAX72xxHard::show()`: `SPI.beginTransaction`, the device loop,
`SPI.endTransaction`. -/
def showAll (s : MAXState) : MAXState × List Event :=
  let p := showLoop s (List.range s.devsNum)
  (p.1, Event.spiBegin :: (p.2 ++ [Event.spiEnd]))

/-- `SBK_MAX72xxHard::show(uint8_t devIdx)`: `SPI.beginTransaction`
first, then the guard `devIdx >= _devsNum || !_update[devIdx]` returns
early — without reaching `SPI.endTransaction`; otherwise the column
loop, `_update[devIdx] = false`, `SPI.endTransaction`. -/
def showOne (s : MAXState) (devIdx : Nat) : MAXState × List Event :=
  if s.devsNum ≤ devIdx ∨ s.update.getD devIdx false = false then
    (s, [Event.spiBegin])
  else
    ({ s with update := s.update.set devIdx false },
      Event.spiBegin ::
        (colLoop s devIdx (List.range maxColumns) ++ [Event.spiEnd]))

/-- Dispatch one public call on the Hard variant. -/
def step (s : MAXState) : Op → MAXState × List Event
  | Op.setLed d r c b => SBK.setLed s d r c b
  | Op.setCol d c v => SBK.setCol s d c v
  | Op.clearOne d => SBK.clearOne s d
  | Op.clearAll => SBK.clearAll s
  | Op.setBrightness d b => SBK.setBrightness s d b
  | Op.setScanLimit d l => SBK.setScanLimit s d l
  | Op.setShutdown d b => SBK.setShutdown s d b
  | Op.testMode d b => SBK.testMode s d b
  | Op.showAll => showAll s
  | Op.showOne d => showOne s d

/-- Run a sequence of public calls on the Hard variant, accumulating
the event trace. -/
def run (s : MAXState) : List Op → MAXState × List Event
  | [] => (s, [])
  | op :: rest =>
      let p := step s op
      let q := run p.1 rest
      (q.1, p.2 ++ q.2)

end Hard

namespace Soft

/-- `SBK_MAX72xxSoft::show(uint8_t devIdx)`: guard
`devIdx >= _devsNum || !_update[devIdx]` is a plain early return (no
transaction bracketing in this variant); otherwise the column loop and
`_update[devIdx] = false`. -/
def showOne (s : MAXState) (devIdx : Nat) : MAXState × List Event :=
  if s.devsNum ≤ devIdx ∨ s.update.getD devIdx false = false then (s, [])
  else
    ({ s with update := s.update.set devIdx false },
      colLoop s devIdx (List.range maxColumns))

/-- The `for (devIdx = 0; devIdx < _devsNum; devIdx++) show(devIdx)`
loop of `SBK_MAX72xxSoft::show()`. -/
def showAllLoop (s : MAXState) : List Nat → MAXState × List Event
  | [] => (s, [])
  | d :: rest =>
      let p := showOne s d
      let q := showAllLoop p.1 rest
      (q.1, p.2 ++ q.2)

/-- `SBK_MAX72xxSoft::show()`. -/
def showAll (s : MAXState) : MAXState × List Event :=
  showAllLoop s (List.range s.devsNum)

/-- Dispatch one public call on the Soft variant (the buffer-logic
calls are byte-for-byte identical to the Hard variant in the source and
shared; only the flush paths differ). -/
def step (s : MAXState) : Op → MAXState × List Event
  | Op.setLed d r c b => SBK.setLed s d r c b
  | Op.setCol d c v => SBK.setCol s d c v
  | Op.clearOne d => SBK.clearOne s d
  | Op.clearAll => SBK.clearAll s
  | Op.setBrightness d b => SBK.setBrightness s d b
  | Op.setScanLimit d l => SBK.setScanLimit s d l
  | Op.setShutdown d b => SBK.setShutdown s d b
  | Op.testMode d b => SBK.testMode s d b
  | Op.showAll => showAll s
  | Op.showOne d => showOne s d

/-- Run a sequence of public calls on the Soft variant. -/
def run (s : MAXState) : List Op → MAXState × List Event
  | [] => (s, [])
  | op :: rest =>
      let p := step s op
      let q := run p.1 rest
      (q.1, p.2 ++ q.2)

end Soft

/-- Rendering of a list of (opcode, data) pairs as the two bytes per
device the chain protocol shifts out; used to state the framing claims. -/
def pairsToBytes : List (Nat × Nat) → List Event
  | [] => []
  | p :: rest => Event.sendByte p.1 :: Event.sendByte p.2 :: pairsToBytes rest

/-! ### List helper lemmas -/

theorem getD_set_self {α : Type} (l : List α) (i : Nat) (a dflt : α)
    (h : i < l.length) : (l.set i a).getD i dflt = a := by
  simp [List.getD_eq_getElem, List.getElem_set, h]

theorem getD_set_ne {α : Type} {i j : Nat} (l : List α) (a dflt : α)
    (h : i ≠ j) : (l.set i a).getD j dflt = l.getD j dflt := by
  simp [List.getD, List.getElem?_set, h]

theorem set_getD_self (l : List Nat) (i : Nat) (h : i < l.length) :
    l.set i (l.getD i 0) = l := by
  apply List.ext_getElem?
  intro j
  rw [List.getElem?_set]
  split
  · subst j
    simp [List.getD, List.getElem?_eq_getElem h]
  · rfl

/-! ### Frame lemmas (claim C1) -/

theorem frameBytes_eq_pairs (t o d : Nat) (l : List Nat) :
    frameBytes t o d l =
      pairsToBytes (l.map fun i =>
        (if i = t then o else OP_NOOP, if i = t then d else 0)) := by
  induction l with
  | nil => rfl
  | cons a rest ih => simp [frameBytes, pairsToBytes, ih]

theorem pairsToBytes_count_csLow (ps : List (Nat × Nat)) :
    (pairsToBytes ps).count Event.csLow = 0 := by
  induction ps with
  | nil => rfl
  | cons p rest ih => simp [pairsToBytes, List.count_cons, ih]

theorem pairsToBytes_count_csHigh (ps : List (Nat × Nat)) :
    (pairsToBytes ps).count Event.csHigh = 0 := by
  induction ps with
  | nil => rfl
  | cons p rest ih => simp [pairsToBytes, List.count_cons, ih]

/-- C1: for every chain length `N ∈ [1,8]`, in-range target `t < N` and
any (opcode, data), one `_spiTransfer` call emits exactly `N`
(opcode, data) byte pairs in device order `N-1` down to `0` (the pair at
list position `j` addresses device `N-1-j`), of which exactly the pair
for device `t` carries the given opcode and data while the other `N-1`
pairs are `(0x00, 0x00)`, framed by exactly one chip-select assertion
before the first pair and one deassertion after the last.  The
definition `spiTransfer` embeds both `SBK_MAX72xxHard::_spiTransfer` and
`SBK_MAX72xxSoft::_spiTransfer`, which are byte-identical. -/
theorem C1_chain_framing (s : MAXState) (t opcode data : Nat)
    (h1 : 1 ≤ s.devsNum) (h8 : s.devsNum ≤ 8) (ht : t < s.devsNum) :
    ∃ ps : List (Nat × Nat),
      spiTransfer s t opcode data =
        Event.csLow :: (pairsToBytes ps ++ [Event.csHigh]) ∧
      ps.length = s.devsNum ∧
      (∀ j, j < s.devsNum →
        ps.getD j (0, 0) =
          if s.devsNum - 1 - j = t then (opcode, data) else (0, 0)) ∧
      (spiTransfer s t opcode data).count Event.csLow = 1 ∧
      (spiTransfer s t opcode data).count Event.csHigh = 1 := by
  have hN : 1 ≤ s.devsNum ∧ s.devsNum ≤ 8 := ⟨h1, h8⟩
  have hguard : ¬ s.devsNum ≤ t := Nat.not_le.mpr ht
  refine ⟨(List.range s.devsNum).reverse.map fun i =>
    (if i = t then opcode else 0, if i = t then data else 0), ?_, ?_, ?_, ?_, ?_⟩
  · rw [spiTransfer, if_neg hguard, frameBytes_eq_pairs]
    rfl
  · simp
  · intro j hj
    have hjlen : j < ((List.range s.devsNum).reverse.map fun i =>
        (if i = t then opcode else 0, if i = t then data else 0)).length := by
      simpa using hj
    rw [List.getD_eq_getElem _ _ hjlen, List.getElem_map, List.getElem_reverse]
    simp only [List.length_range, List.getElem_range]
    by_cases h : s.devsNum - 1 - j = t <;> simp [h]
  · rw [spiTransfer, if_neg hguard, frameBytes_eq_pairs]
    simp [List.count_cons, List.count_append, pairsToBytes_count_csLow]
  · rw [spiTransfer, if_neg hguard, frameBytes_eq_pairs]
    simp [List.count_cons, List.count_append, pairsToBytes_count_csHigh]

/-- Witness for C1 at chain length 3, target device 1, opcode 0x04,
data 0x80 (the spec's §8 scenario). -/
theorem C1_chain_framing_witness :
    ∃ ps : List (Nat × Nat),
      spiTransfer (mkState 3) 1 4 128 =
        Event.csLow :: (pairsToBytes ps ++ [Event.csHigh]) ∧
      ps.length = (mkState 3).devsNum ∧
      (∀ j, j < (mkState 3).devsNum →
        ps.getD j (0, 0) =
          if (mkState 3).devsNum - 1 - j = 1 then (4, 128) else (0, 0)) ∧
      (spiTransfer (mkState 3) 1 4 128).count Event.csLow = 1 ∧
      (spiTransfer (mkState 3) 1 4 128).count Event.csHigh = 1 :=
  C1_chain_framing (mkState 3) 1 4 128 (by decide) (by decide) (by decide)

/-- C8: a chain-framed transfer whose target device index is out of
range (`targetDevice >= _devsNum`) is dropped entirely — no bytes are
sent and chip-select is never asserted — for `_spiTransfer`,
`_writeColToAllDevices`, and every register write routed through them
(shutdown, scan limit, brightness, test mode); no state changes either. -/
theorem C8_out_of_range_dropped (s : MAXState)
    (t opcode data limit brightness colIdx : Nat) (status enable : Bool)
    (ht : s.devsNum ≤ t) :
    spiTransfer s t opcode data = [] ∧
    writeColToAllDevices s t colIdx data = [] ∧
    setShutdown s t status = (s, []) ∧
    setScanLimit s t limit = (s, []) ∧
    setBrightness s t brightness = (s, []) ∧
    testMode s t enable = (s, []) := by
  refine ⟨?_, ?_, ?_, ?_, ?_, ?_⟩ <;>
    simp [spiTransfer, writeColToAllDevices, setShutdown, setScanLimit,
      setBrightness, testMode, ht]

/-- C9: for every constructor argument `devsNum` (a uint8, including 0
and values above 8), construction is a total function whose stored chain
length is `devsNum` clamped to `[1, 8]`, with a zeroed
`chainLength × 8`-byte scan buffer and all dirty flags false. -/
theorem C9_constructor_clamps (dn : Nat) (hdn : dn ≤ 255) :
    1 ≤ (mkState dn).devsNum ∧ (mkState dn).devsNum ≤ 8 ∧
    (dn = 0 → (mkState dn).devsNum = 1) ∧
    (1 ≤ dn → dn ≤ 8 → (mkState dn).devsNum = dn) ∧
    (8 < dn → (mkState dn).devsNum = 8) ∧
    (mkState dn).buffer.length = (mkState dn).devsNum * maxColumns ∧
    (∀ b ∈ (mkState dn).buffer, b = 0) ∧
    (mkState dn).update.length = (mkState dn).devsNum ∧
    (∀ u ∈ (mkState dn).update, u = false) := by
  have hd := hdn
  refine ⟨?_, ?_, ?_, ?_, ?_, ?_, ?_, ?_, ?_⟩
  · show 1 ≤ constrain dn 1 8
    unfold constrain; split <;> (try split) <;> omega
  · show constrain dn 1 8 ≤ 8
    unfold constrain; split <;> (try split) <;> omega
  · intro h0; subst h0; rfl
  · intro ha hb
    show constrain dn 1 8 = dn
    unfold constrain; split <;> (try split) <;> omega
  · intro hgt
    show constrain dn 1 8 = 8
    unfold constrain; split <;> (try split) <;> omega
  · simp [mkState]
  · intro b hb
    exact List.eq_of_mem_replicate hb
  · simp [mkState]
  · intro u hu
    exact List.eq_of_mem_replicate hu

/-- C10: every in-range `setLed` call emits exactly one serial debug
line carrying the device, row, column and state (the `Serial.print`
block), and every out-of-range `setLed` call emits no serial output. -/
theorem C10_serial_debug_line (s : MAXState) (d r c : Nat) (b : Bool) :
    (d < s.devsNum → r < maxRows → c < maxColumns →
      (setLed s d r c b).2 = [Event.serialLed d r c b]) ∧
    (s.devsNum ≤ d ∨ maxRows ≤ r ∨ maxColumns ≤ c →
      (setLed s d r c b).2 = []) := by
  constructor
  · intro hd hr hc
    rw [setLed, if_neg (by push_neg; exact ⟨hd, hr, hc⟩)]
  · intro h
    rw [setLed, if_pos h]

/-- Witness for C8 at chain length 2, target device 5. -/
theorem C8_out_of_range_dropped_witness :
    spiTransfer (mkState 2) 5 10 7 = [] ∧
    writeColToAllDevices (mkState 2) 5 3 7 = [] ∧
    setShutdown (mkState 2) 5 true = (mkState 2, []) ∧
    setScanLimit (mkState 2) 5 7 = (mkState 2, []) ∧
    setBrightness (mkState 2) 5 9 = (mkState 2, []) ∧
    testMode (mkState 2) 5 true = (mkState 2, []) :=
  C8_out_of_range_dropped (mkState 2) 5 10 7 7 9 3 true true (by decide)

/-- Witness for C9 at the out-of-range constructor arguments 12 and 0. -/
theorem C9_constructor_clamps_witness :
    (mkState 12).devsNum = 8 ∧ (mkState 0).devsNum = 1 :=
  ⟨(C9_constructor_clamps 12 (by decide)).2.2.2.2.1 (by decide),
   (C9_constructor_clamps 0 (by decide)).2.2.1 rfl⟩

/-- Witness for C10: in-range `setLed(1, 0, 3, true)` on a chain of 2
emits the debug line; out-of-range `setLed(5, 0, 3, true)` emits
nothing. -/
theorem C10_serial_debug_line_witness :
    (setLed (mkState 2) 1 0 3 true).2 = [Event.serialLed 1 0 3 true] ∧
    (setLed (mkState 2) 5 0 3 true).2 = [] :=
  ⟨(C10_serial_debug_line (mkState 2) 1 0 3 true).1 (by decide) (by decide)
      (by decide),
   (C10_serial_debug_line (mkState 2) 5 0 3 true).2 (Or.inl (by decide))⟩

theorem land_two_pow_ne_zero (x k : Nat) :
    (x &&& 2 ^ k ≠ 0) ↔ x.testBit k = true := by
  rw [Nat.and_two_pow]
  cases h : x.testBit k <;> simp [h]

theorem comp_mask_testBit (r r' : Nat) (hr : r < 8) (hr' : r' < 8) :
    (255 ^^^ 2 ^ (7 - r)).testBit (7 - r') = decide (r ≠ r') := by
  interval_cases r <;> interval_cases r' <;> decide

theorem colIndex_lt (s : MAXState) (h : WF s) {d c : Nat}
    (hd : d < s.devsNum) (hc : c < maxColumns) :
    colIndex d c < s.buffer.length := by
  have hc8 : c < 8 := hc
  have hlt : d * 8 + c < s.devsNum * 8 := by omega
  rw [h.2.2.1]
  exact hlt

theorem colIndex_inj {d c d' c' : Nat} (hc : c < maxColumns)
    (hc' : c' < maxColumns) (h : colIndex d c = colIndex d' c') :
    d = d' ∧ c = c' := by
  unfold colIndex maxColumns at *
  omega

theorem testBit_setLedVal_ne (prior r r' : Nat) (b : Bool) (hr : r < 8)
    (hr' : r' < 8) (hrr : r ≠ r') :
    (if b then prior ||| 2 ^ (7 - r)
      else prior &&& (255 ^^^ 2 ^ (7 - r))).testBit (7 - r') =
      prior.testBit (7 - r') := by
  cases b with
  | true =>
    rw [if_pos rfl, Nat.testBit_lor,
      Nat.testBit_two_pow_of_ne (by omega : 7 - r ≠ 7 - r')]
    simp
  | false =>
    rw [if_neg (by simp), Nat.testBit_land, comp_mask_testBit r r' hr hr']
    simp [hrr]

/-- C6: for every well-formed state and in-range coordinate
`(d, r, c)`, `getLed (d, r, c)` immediately after `setLed (d, r, c, b)`
returns `b`, and the `setLed` call leaves `getLed` unchanged at every
other in-range coordinate `(d', r', c') ≠ (d, r, c)`.  The embedded
`setLed` / `getLed` are shared by both transport variants, whose source
bodies are identical. -/
theorem C6_setLed_getLed (s : MAXState) (h : WF s) (d r c : Nat) (b : Bool)
    (hd : d < s.devsNum) (hr : r < maxRows) (hc : c < maxColumns)
    (d' r' c' : Nat) (hd' : d' < s.devsNum) (hr' : r' < maxRows)
    (hc' : c' < maxColumns) (hne : (d', r', c') ≠ (d, r, c)) :
    getLed (setLed s d r c b).1 d r c = b ∧
    getLed (setLed s d r c b).1 d' r' c' = getLed s d' r' c' := by
  have hr8 : r < 8 := hr
  have hr8' : r' < 8 := hr'
  have hguard : ¬ (s.devsNum ≤ d ∨ maxRows ≤ r ∨ maxColumns ≤ c) := by
    push_neg; exact ⟨hd, hr, hc⟩
  have hguard' : ¬ (s.devsNum ≤ d' ∨ maxRows ≤ r' ∨ maxColumns ≤ c') := by
    push_neg; exact ⟨hd', hr', hc'⟩
  have hidx := colIndex_lt s h hd hc
  have hmask : ∀ x : Nat, bitMaskRow x = 2 ^ (7 - x) := fun x => rfl
  set prior := s.buffer.getD (colIndex d c) 0 with hprior
  have hbuf : (setLed s d r c b).1.buffer =
      s.buffer.set (colIndex d c)
        (if b then prior ||| 2 ^ (7 - r)
          else prior &&& (255 ^^^ 2 ^ (7 - r))) := by
    rw [setLed, if_neg hguard]
    simp only [hmask]
  have hdev : (setLed s d r c b).1.devsNum = s.devsNum := by
    rw [setLed, if_neg hguard]
  constructor
  · rw [getLed, hdev, if_neg hguard, hbuf, getD_set_self _ _ _ _ hidx, hmask]
    cases b with
    | true =>
      rw [if_pos rfl]
      simp [land_two_pow_ne_zero, Nat.testBit_lor, Nat.testBit_two_pow_self]
    | false =>
      rw [if_neg (by simp)]
      have hz : ((prior &&& (255 ^^^ 2 ^ (7 - r))) &&& 2 ^ (7 - r)) = 0 := by
        have hb : ((prior &&& (255 ^^^ 2 ^ (7 - r))).testBit (7 - r)) = false := by
          rw [Nat.testBit_land, comp_mask_testBit r r hr8 hr8]
          simp
        rw [Nat.and_two_pow, hb]
        simp
      simp [hz]
  · rw [getLed, hdev, if_neg hguard', hbuf, getLed, if_neg hguard']
    by_cases hsame : colIndex d' c' = colIndex d c
    · obtain ⟨hdd, hcc⟩ := colIndex_inj hc hc' hsame.symm
      have hrr : r ≠ r' := by
        intro hr0
        exact hne (by simp [hdd.symm, hcc.symm, hr0])
      rw [hsame, getD_set_self _ _ _ _ hidx, ← hprior, hmask]
      have hbitj := testBit_setLedVal_ne prior r r' b hr8 hr8' hrr
      rw [show ((if b then prior ||| 2 ^ (7 - r)
          else prior &&& (255 ^^^ 2 ^ (7 - r))) &&& 2 ^ (7 - r')) =
          (prior.testBit (7 - r')).toNat * 2 ^ (7 - r') by
        rw [Nat.and_two_pow, hbitj], Nat.and_two_pow]
    · rw [getD_set_ne _ _ _ (fun h0 => hsame h0.symm)]

/-- Witness for C6: chain of 2, `setLed(1, 0, 3, true)` read back at
`(1, 0, 3)` and at the untouched coordinate `(0, 0, 0)`. -/
theorem C6_setLed_getLed_witness :
    getLed (setLed (mkState 2) 1 0 3 true).1 1 0 3 = true ∧
    getLed (setLed (mkState 2) 1 0 3 true).1 0 0 0 =
      getLed (mkState 2) 0 0 0 :=
  C6_setLed_getLed (mkState 2) (by decide) 1 0 3 true (by decide) (by decide)
    (by decide) 0 0 0 (by decide) (by decide) (by decide) (by decide)

theorem lor_self_right (x m : Nat) : (x ||| m) ||| m = x ||| m := by
  apply Nat.eq_of_testBit_eq
  intro i
  simp [Nat.testBit_lor, Bool.or_assoc]

theorem land_self_right (x m : Nat) : (x &&& m) &&& m = x &&& m := by
  apply Nat.eq_of_testBit_eq
  intro i
  simp [Nat.testBit_land, Bool.and_assoc]

/-- C7: calling `setLed` a second time with the same arguments leaves
the dirty flags exactly as after the first call (the second call does
not set the flag), and likewise for `setCol`; more generally, when a
`setLed` / `setCol` call leaves the buffer unchanged it leaves the dirty
flags unchanged — dirty is set only when the stored byte actually
changes value. -/
theorem C7_dirty_only_on_change (s : MAXState) (h : WF s) (d r c v : Nat)
    (b : Bool) (hd : d < s.devsNum) (hr : r < maxRows) (hc : c < maxColumns) :
    (setLed (setLed s d r c b).1 d r c b).1.update =
      (setLed s d r c b).1.update ∧
    ((setLed s d r c b).1.buffer = s.buffer →
      (setLed s d r c b).1.update = s.update) ∧
    (setCol (setCol s d c v).1 d c v).1.update = (setCol s d c v).1.update ∧
    ((setCol s d c v).1.buffer = s.buffer →
      (setCol s d c v).1.update = s.update) := by
  have hguard : ¬ (s.devsNum ≤ d ∨ maxRows ≤ r ∨ maxColumns ≤ c) := by
    push_neg; exact ⟨hd, hr, hc⟩
  have hguard2 : ¬ (s.devsNum ≤ d ∨ maxColumns ≤ c) := by
    push_neg; exact ⟨hd, hc⟩
  have hidx := colIndex_lt s h hd hc
  set prior := s.buffer.getD (colIndex d c) 0 with hprior
  set val := (if b then prior ||| bitMaskRow r
    else prior &&& (255 ^^^ bitMaskRow r)) with hval
  have hs1 : (setLed s d r c b).1 =
      { s with
        buffer := s.buffer.set (colIndex d c) val
        update := if val ≠ prior then s.update.set d true else s.update } := by
    rw [setLed, if_neg hguard]
  refine ⟨?_, ?_, ?_, ?_⟩
  · rw [hs1]
    have hidx1 : colIndex d c <
        (s.buffer.set (colIndex d c) val).length := by
      simpa using hidx
    rw [setLed]
    rw [if_neg hguard]
    simp only [getD_set_self _ _ _ _ hidx]
    have hval2 : (if b then val ||| bitMaskRow r
        else val &&& (255 ^^^ bitMaskRow r)) = val := by
      cases b with
      | true => rw [if_pos rfl, hval, if_pos rfl, lor_self_right]
      | false => rw [if_neg (by simp), hval, if_neg (by simp), land_self_right]
    rw [hval2]
    simp
  · intro hbeq
    rw [hs1] at hbeq ⊢
    simp only at hbeq
    have hvp : val = prior := by
      have h0 := congrArg (fun l => l.getD (colIndex d c) 0) hbeq
      simp only at h0
      rw [getD_set_self _ _ _ _ hidx] at h0
      exact h0
    simp [hvp]
  · by_cases hbv : prior ≠ v
    · have hs1c : (setCol s d c v).1 =
          { s with
            buffer := s.buffer.set (colIndex d c) v
            update := s.update.set d true } := by
        rw [setCol, if_neg hguard2, if_pos (by exact hbv)]
      rw [hs1c, setCol]
      rw [if_neg hguard2]
      rw [if_neg (by rw [getD_set_self _ _ _ _ hidx]; exact not_not_intro rfl)]
    · have hs1c : (setCol s d c v).1 = s := by
        rw [setCol, if_neg hguard2, if_neg (by exact hbv)]
      rw [hs1c, setCol, if_neg hguard2, if_neg (by exact hbv)]
  · intro hbeq
    by_cases hbv : prior ≠ v
    · exfalso
      have hs1c : (setCol s d c v).1.buffer =
          s.buffer.set (colIndex d c) v := by
        rw [setCol, if_neg hguard2, if_pos (by exact hbv)]
      rw [hs1c] at hbeq
      have := congrArg (fun l => l.getD (colIndex d c) 0) hbeq
      simp only [getD_set_self _ _ _ _ hidx] at this
      exact hbv this.symm
    · rw [setCol, if_neg hguard2, if_neg (by exact hbv)]

/-- Witness for C7: chain of 2, `setLed(1, 0, 3, true)` twice and
`setCol(1, 3, 0xAA)` twice. -/
theorem C7_dirty_only_on_change_witness :
    (setLed (setLed (mkState 2) 1 0 3 true).1 1 0 3 true).1.update =
      (setLed (mkState 2) 1 0 3 true).1.update ∧
    (setCol (setCol (mkState 2) 1 3 170).1 1 3 170).1.update =
      (setCol (mkState 2) 1 3 170).1.update :=
  ⟨(C7_dirty_only_on_change (mkState 2) (by decide) 1 0 3 170 true (by decide)
      (by decide) (by decide)).1,
   (C7_dirty_only_on_change (mkState 2) (by decide) 1 0 3 170 true (by decide)
      (by decide) (by decide)).2.2.1⟩

/-- Counterexample to C2 as stated: the claim says `clear(0)` on a
chain of 2 "leaves dirty[0] == false afterward", but the code executes
`_update[devIdx] = true;` ("Mark this device for update"); on the
freshly constructed chain of 2, `clear(0)` leaves `dirty[0] == true`. -/
theorem C2_clear_counterexample :
    ¬ ((clearOne (mkState 2) 0).1.update.getD 0 false = false) := by decide

/-- C2 amended: for every well-formed prior state with chain length 2,
`clear(0)` sets all 8 buffer bytes of device 0 to zero, immediately
transmits 8 column writes of zero to device 0 (one chain-framed
transfer per digit register, regardless of the prior dirty state), and
leaves `dirty[0] == true` afterward. -/
theorem C2_clear_amended (s : MAXState) (h : WF s) (h2 : s.devsNum = 2) :
    (∀ c, c < 8 → (clearOne s 0).1.buffer.getD c 255 = 0) ∧
    (clearOne s 0).1.update.getD 0 false = true ∧
    (clearOne s 0).2 =
      (List.range 8).flatMap (fun col =>
        [Event.csLow, Event.sendByte 0, Event.sendByte 0,
         Event.sendByte (OP_DIGIT0 + col), Event.sendByte 0, Event.csHigh]) := by
  obtain ⟨dn, buf, upd⟩ := s
  simp only at h2
  subst h2
  have hbl : buf.length = 16 := h.2.2.1
  have hul : upd.length = 2 := h.2.2.2.1
  have hco : clearOne ⟨2, buf, upd⟩ 0 =
      clearLoop 0 ⟨2, buf, upd.set 0 true⟩ [0, 1, 2, 3, 4, 5, 6, 7] := by
    rw [clearOne, if_neg (by show ¬ (2 ≤ 0); omega)]
    rfl
  refine ⟨?_, ?_, ?_⟩
  · intro c hc
    rw [hco]
    show (((((((((buf.set 0 0).set 1 0).set 2 0).set 3 0).set 4 0).set 5
        0).set 6 0).set 7 0)).getD c 255 = 0
    interval_cases c <;>
      simp [getD_set_ne, getD_set_self, List.length_set, hbl]
  · rw [hco]
    show (upd.set 0 true).getD 0 false = true
    exact getD_set_self upd 0 true false (by omega)
  · rw [hco]
    rfl

/-- Witness for C2 amended, at the chain-of-2 state reached by
`setCol(0, 0, 0xAA)` (device 0 dirty beforehand). -/
theorem C2_clear_amended_witness :
    (clearOne (setCol (mkState 2) 0 0 170).1 0).1.update.getD 0 false = true ∧
    (clearOne (setCol (mkState 2) 0 0 170).1 0).1.buffer.getD 0 255 = 0 :=
  ⟨(C2_clear_amended (setCol (mkState 2) 0 0 170).1 (by decide)
      (by decide)).2.1,
   (C2_clear_amended (setCol (mkState 2) 0 0 170).1 (by decide)
      (by decide)).1 0 (by decide)⟩

/-- C3 (code bug, Hard variant): the claim says an out-of-range or
not-dirty `show(devIdx)` (`flushOne`) is a complete no-op with no
observable effect.  `SBK_MAX72xxSoft::show(uint8_t)` is; but
`SBK_MAX72xxHard::show(uint8_t)` calls `SPI.beginTransaction` *before*
its guard and the early return skips `SPI.endTransaction` (whose own
comment says it "Restores SPI state for other users"), so the SPI
transaction is left open — an observable shared-bus state change.
Evaluated here on a fresh chain of 2 at the not-dirty device 0 and the
out-of-range device 5. -/
theorem C3_flushOne_not_noop :
    Hard.showOne (mkState 2) 0 = (mkState 2, [Event.spiBegin]) ∧
    Hard.showOne (mkState 2) 5 = (mkState 2, [Event.spiBegin]) ∧
    Soft.showOne (mkState 2) 0 = (mkState 2, []) ∧
    Soft.showOne (mkState 2) 5 = (mkState 2, []) := by decide

theorem getD_set_false_self (l : List Bool) (j : Nat) :
    (l.set j false).getD j false = false := by
  by_cases hl : j < l.length
  · exact getD_set_self l j false false hl
  · rw [List.getD_eq_default]
    simpa using Nat.le_of_not_lt hl

theorem getD_set_false_of (l : List Bool) (j d : Nat)
    (h : l.getD d false = false) : (l.set j false).getD d false = false := by
  by_cases hjd : j = d
  · subst hjd
    exact getD_set_false_self l j
  · rw [getD_set_ne l false false hjd]
    exact h

theorem showLoop_devsNum (l : List Nat) (s : MAXState) :
    (Hard.showLoop s l).1.devsNum = s.devsNum := by
  induction l generalizing s with
  | nil => rfl
  | cons d rest ih =>
    simp only [Hard.showLoop]
    split
    · exact ih _
    · exact ih _

theorem showLoop_update_length (l : List Nat) (s : MAXState) :
    (Hard.showLoop s l).1.update.length = s.update.length := by
  induction l generalizing s with
  | nil => rfl
  | cons d rest ih =>
    simp only [Hard.showLoop]
    split
    · rw [ih]
      simp
    · exact ih _

theorem showLoop_false_mono (l : List Nat) (s : MAXState) (d : Nat)
    (h : s.update.getD d false = false) :
    (Hard.showLoop s l).1.update.getD d false = false := by
  induction l generalizing s with
  | nil => exact h
  | cons a rest ih =>
    simp only [Hard.showLoop]
    split
    · exact ih _ (getD_set_false_of _ _ _ h)
    · exact ih _ h

theorem showLoop_clears (l : List Nat) (s : MAXState) (d : Nat) (hd : d ∈ l) :
    (Hard.showLoop s l).1.update.getD d false = false := by
  induction l generalizing s with
  | nil => cases hd
  | cons a rest ih =>
    simp only [Hard.showLoop]
    rcases List.mem_cons.mp hd with hda | hdr
    · subst hda
      split
      · exact showLoop_false_mono _ _ _ (getD_set_false_self _ _)
      · rename_i hcl
        exact showLoop_false_mono _ _ _ (Bool.not_eq_true _ ▸ by
          revert hcl
          cases s.update.getD d false <;> simp)
    · split
      · exact ih _ hdr
      · exact ih _ hdr

theorem showLoop_clean (l : List Nat) (s : MAXState)
    (h : ∀ d ∈ l, s.update.getD d false = false) :
    Hard.showLoop s l = (s, []) := by
  induction l with
  | nil => rfl
  | cons a rest ih =>
    simp only [Hard.showLoop]
    rw [h a (List.mem_cons_self a rest)]
    rw [if_neg Bool.false_ne_true]
    exact ih fun d hd => h d (List.mem_cons_of_mem a hd)

theorem loops_eq (l : List Nat) (s : MAXState)
    (h : ∀ d ∈ l, d < s.devsNum) :
    Hard.showLoop s l = Soft.showAllLoop s l := by
  induction l generalizing s with
  | nil => rfl
  | cons d rest ih =>
    have hd : d < s.devsNum := h d (List.mem_cons_self d rest)
    have hrest : ∀ x ∈ rest, x < s.devsNum :=
      fun x hx => h x (List.mem_cons_of_mem d hx)
    simp only [Hard.showLoop, Soft.showAllLoop, Soft.showOne]
    by_cases hdirty : s.update.getD d false = true
    · rw [if_pos hdirty,
        if_neg (fun hor => hor.elim
          (fun h1 => absurd hd (Nat.not_lt.mpr h1))
          (fun h2 => by rw [hdirty] at h2; exact Bool.noConfusion h2))]
      rw [ih { s with update := s.update.set d false } hrest]
    · rw [if_neg hdirty,
        if_pos (Or.inr (by revert hdirty; cases s.update.getD d false <;> simp))]
      rw [ih s hrest]
      rfl


/-- C5: after one `show()` (`flushAll`) every dirty flag is false, and
an immediately following `show()` with no intervening mutation
transmits zero wire bytes — for the Hard variant the second trace
contains no wire events at all (only the transaction bracketing), and
for the Soft variant the second trace is empty outright. -/
theorem C5_flushAll_clears_dirty (s : MAXState) (h : WF s) :
    (∀ d, (Hard.showAll s).1.update.getD d false = false) ∧
    ((Hard.showAll (Hard.showAll s).1).2.filter isWire = []) ∧
    (∀ d, (Soft.showAll s).1.update.getD d false = false) ∧
    ((Soft.showAll (Soft.showAll s).1).2 = []) := by
  have hlen : s.update.length = s.devsNum := h.2.2.2.1
  have hall : ∀ d,
      (Hard.showLoop s (List.range s.devsNum)).1.update.getD d false = false := by
    intro d
    by_cases hd : d < s.devsNum
    · exact showLoop_clears _ _ _ (List.mem_range.mpr hd)
    · apply List.getD_eq_default
      rw [showLoop_update_length, hlen]
      omega
  have hmem : ∀ d ∈ List.range s.devsNum, d < s.devsNum :=
    fun d hd => List.mem_range.mp hd
  have hsoft : Soft.showAll s = Hard.showLoop s (List.range s.devsNum) :=
    (loops_eq (List.range s.devsNum) s hmem).symm
  refine ⟨?_, ?_, ?_, ?_⟩
  · intro d
    exact hall d
  · set t := (Hard.showAll s).1 with ht
    have htall : ∀ d, t.update.getD d false = false := hall
    have hclean := showLoop_clean (List.range t.devsNum) t (fun d _ => htall d)
    simp only [Hard.showAll]
    rw [hclean]
    rfl
  · intro d
    rw [hsoft]
    exact hall d
  · rw [hsoft]
    set t := (Hard.showLoop s (List.range s.devsNum)).1 with ht
    have hmem2 : ∀ d ∈ List.range t.devsNum, d < t.devsNum :=
      fun d hd => List.mem_range.mp hd
    have hst : Soft.showAll t = Hard.showLoop t (List.range t.devsNum) :=
      (loops_eq _ _ hmem2).symm
    rw [hst, showLoop_clean _ _ (fun d _ => hall d)]


/-- Witness for C5 at the chain-of-2 state reached by
`setLed(0, 0, 0, true)` (device 0 dirty). -/
theorem C5_flushAll_clears_dirty_witness :
    (Hard.showAll (setLed (mkState 2) 0 0 0 true).1).1.update.getD 0 false =
      false ∧
    (Soft.showAll
        (Soft.showAll (setLed (mkState 2) 0 0 0 true).1).1).2 = [] :=
  ⟨(C5_flushAll_clears_dirty (setLed (mkState 2) 0 0 0 true).1
      (by decide)).1 0,
   (C5_flushAll_clears_dirty (setLed (mkState 2) 0 0 0 true).1
      (by decide)).2.2.2⟩

theorem step_eq (s : MAXState) (op : Op) :
    (Hard.step s op).1 = (Soft.step s op).1 ∧
    (Hard.step s op).2.filter isWire = (Soft.step s op).2.filter isWire := by
  cases op with
  | setLed d r c b => exact ⟨rfl, rfl⟩
  | setCol d c v => exact ⟨rfl, rfl⟩
  | clearOne d => exact ⟨rfl, rfl⟩
  | clearAll => exact ⟨rfl, rfl⟩
  | setBrightness d b => exact ⟨rfl, rfl⟩
  | setScanLimit d l => exact ⟨rfl, rfl⟩
  | setShutdown d b => exact ⟨rfl, rfl⟩
  | testMode d b => exact ⟨rfl, rfl⟩
  | showAll =>
    have hleq := loops_eq (List.range s.devsNum) s
      (fun d hd => List.mem_range.mp hd)
    constructor
    · show (Hard.showAll s).1 = (Soft.showAll s).1
      simp only [Hard.showAll, Soft.showAll]
      rw [hleq]
    · show (Hard.showAll s).2.filter isWire = (Soft.showAll s).2.filter isWire
      simp only [Hard.showAll, Soft.showAll]
      rw [hleq]
      simp [List.filter_append, isWire]
  | showOne d =>
    by_cases hg : s.devsNum ≤ d ∨ s.update.getD d false = false
    · constructor
      · show (Hard.showOne s d).1 = (Soft.showOne s d).1
        rw [Hard.showOne, if_pos hg, Soft.showOne, if_pos hg]
      · show (Hard.showOne s d).2.filter isWire =
          (Soft.showOne s d).2.filter isWire
        rw [Hard.showOne, if_pos hg, Soft.showOne, if_pos hg]
        rfl
    · constructor
      · show (Hard.showOne s d).1 = (Soft.showOne s d).1
        rw [Hard.showOne, if_neg hg, Soft.showOne, if_neg hg]
      · show (Hard.showOne s d).2.filter isWire =
          (Soft.showOne s d).2.filter isWire
        rw [Hard.showOne, if_neg hg, Soft.showOne, if_neg hg]
        simp [List.filter_append, isWire]

/-- C4: for every constructor chain length and every sequence of public
calls (setLed, setCol, clear, setBrightness, setScanLimit, setShutdown,
testMode, show in both overloads), the hardware-clocked variant and the
bit-banged variant emit the identical sequence of wire bytes and
select-line transitions, and end in identical states (buffer contents,
dirty flags, chain length).  The buffer-logic calls are byte-for-byte
identical in the two source files and shared; the flush paths differ in
the source (transaction bracketing, early-return structure, inline loop
vs per-device delegation) and are embedded separately, so the equality
of their wire traffic is proved, not assumed. -/
theorem C4_transport_equivalence (n : Nat) (ops : List Op) :
    (Hard.run (mkState n) ops).1 = (Soft.run (mkState n) ops).1 ∧
    (Hard.run (mkState n) ops).2.filter isWire =
      (Soft.run (mkState n) ops).2.filter isWire := by
  suffices hgen : ∀ (l : List Op) (s : MAXState),
      (Hard.run s l).1 = (Soft.run s l).1 ∧
      (Hard.run s l).2.filter isWire = (Soft.run s l).2.filter isWire by
    exact hgen ops (mkState n)
  intro l
  induction l with
  | nil => exact fun s => ⟨rfl, rfl⟩
  | cons op rest ih =>
    intro s
    have hs := step_eq s op
    simp only [Hard.run, Soft.run]
    constructor
    · rw [hs.1]
      exact (ih _).1
    · rw [List.filter_append, List.filter_append, hs.1, hs.2, (ih _).2]

end SBK
